import Mathlib

/-!
Shallow embedding of the core data types and operations of the oxen-libquic
snapshot (Address, ConnectionID, Stream accounting, Connection::flush_streams,
Connection::schedule_retransmit, Network close / job submission,
Endpoint::connect, DatagramBuffer teardown), together with theorems settling
the specification claims about them.

Machine integers are modelled as Nat/Int with explicit reductions modulo
2^64 (size_t / uint64_t) or 2^16 (uint16_t) exactly where the C++ arithmetic
can wrap.
-/

namespace OxenQuic

/-! ## Address (src/include/quic/utils.hpp)

An Address stores a sockaddr_in (`_sock_addr`: s_addr, sin_port, sin_family)
and an ngtcp2_addr `_addr` whose `addr` pointer refers to the object's own
`_sock_addr` storage (the constructor, in a translation unit not present under
src/, initializes `_addr` to point at `_sock_addr`; the Path initializer and
the ngtcp2 conversion operators rely on exactly this).  The comparison
`lhs._addr.addr->sa_data != rhs._addr.addr->sa_data` in operator== compares
two lvalues of array type `char[14]`, which decay to pointers: it compares the
ADDRESSES of the two sa_data arrays, not their contents.  We model that
address as the field sa_data_loc: two Address objects constructed separately
occupy distinct storage and therefore have distinct sa_data_loc. -/

structure Address where
  s_addr : Nat
  sin_port : Nat
  sin_family : Nat
  sa_data_loc : Nat
deriving DecidableEq

/-- Embedding of Address::operator== (utils.hpp lines 187-196): returns false
if any of s_addr, sin_port, sin_family differ, or if the sa_data array
addresses differ; otherwise true. -/
def addressEq (lhs rhs : Address) : Bool :=
  if (lhs.s_addr != rhs.s_addr) || (lhs.sin_port != rhs.sin_port)
      || (lhs.sin_family != rhs.sin_family) || (lhs.sa_data_loc != rhs.sa_data_loc) then
    false
  else
    true

/-! ## Stream size accounting (src/include/quic/stream.hpp)

The Stream holds a fixed vector buf of 65536 zero-initialized bytes (so
buf.size() is the capacity of the ring), a used-byte count `size`, and an
acknowledgement watermark `unacked_size`.  available() is
`is_closing || buf.empty() ? 0 : buf.size() - size` with size_t subtraction. -/

structure StreamAcct where
  is_closing : Bool
  bufLen : Nat
  size : Nat
deriving DecidableEq

/-- Embedding of Stream::available (stream.hpp lines 97-99).  The subtraction
buf.size() - size is size_t arithmetic, i.e. computed modulo 2^64. -/
def StreamAcct.available (s : StreamAcct) : Nat :=
  if s.is_closing || (s.bufLen == 0) then 0
  else (s.bufLen + 2 ^ 64 - s.size) % 2 ^ 64

/-! ## ConnectionID (src/include/quic/utils.hpp)

A ConnectionID wraps ngtcp2_cid: a length `datalen` (0..20) and a fixed
20-byte array `data`; bytes at positions at or beyond datalen are present in
the array but are not part of the identifier.  operator== (lines 120-124)
compares datalen and memcmp of the first datalen bytes.  std::hash (lines
296-307) reinterprets the first machine word (8 bytes, little-endian) of the
data array, regardless of datalen. -/

structure ConnectionID where
  datalen : Nat
  data : List Nat
deriving DecidableEq

/-- Embedding of ConnectionID::operator==: same datalen and
memcmp(data, other.data, datalen) == 0. -/
def cidEq (a b : ConnectionID) : Bool :=
  a.datalen == b.datalen && a.data.take a.datalen == b.data.take a.datalen

/-- Little-endian machine word assembled from a list of bytes, as read by
reinterpret_cast of the byte array to size_t on a little-endian machine. -/
def wordOfBytes : List Nat → Nat
  | [] => 0
  | b :: rest => b + 256 * wordOfBytes rest

/-- Embedding of std::hash for ConnectionID: the first 8 bytes of the data
array reinterpreted as one machine word, independent of datalen. -/
def cidHash (c : ConnectionID) : Nat :=
  wordOfBytes (c.data.take 8)

/-! ### Theorems for claims C1, C2, C10 -/

/-- C1: the claim states that Address::operator== returns true if and only if
the (IP, port, family) tuple is equal, and in particular that two distinct
Address objects built from the same triple compare equal.  The code instead
also compares the addresses of the two sa_data arrays, which differ for
distinct objects: two Addresses both holding 127.0.0.1:5500, AF_INET but
residing at distinct storage locations compare unequal. -/
theorem address_eq_false_for_distinct_objects_same_triple :
    addressEq ⟨0x0100007f, 5500, 2, 1000⟩ ⟨0x0100007f, 5500, 2, 2000⟩ = false := by
  decide

/-- C2: Stream::available returns 0 when is_closing is true or the buffer is
empty, and otherwise returns buf.size() - size; under the stream invariant
size ≤ buf.size() (and buf.size() in size_t range) the size_t subtraction
never wraps, so the result is the exact natural difference. -/
theorem stream_available_correct (s : StreamAcct)
    (hinv : s.size ≤ s.bufLen) (hcap : s.bufLen < 2 ^ 64) :
    ((s.is_closing = true ∨ s.bufLen = 0) → s.available = 0) ∧
      (s.is_closing = false → s.bufLen ≠ 0 → s.available = s.bufLen - s.size) := by
  constructor
  · rintro (h | h) <;> simp [StreamAcct.available, h]
  · intro h1 h2
    have hb : (s.bufLen == 0) = false := by simpa using h2
    simp only [StreamAcct.available, h1, hb, Bool.or_self, Bool.or_false, if_neg,
      Bool.false_eq_true, not_false_eq_true]
    omega

/-- Witness for stream_available_correct at a concrete stream: not closing,
capacity 65536, 100 used bytes, giving 65436 available. -/
theorem stream_available_correct_witness :
    (100 : Nat) ≤ 65536 ∧ (65536 : Nat) < 2 ^ 64 ∧
      StreamAcct.available ⟨false, 65536, 100⟩ = 65436 := by
  refine ⟨by norm_num, by norm_num, ?_⟩
  have h := (stream_available_correct ⟨false, 65536, 100⟩ (by norm_num) (by norm_num)).2
    rfl (by norm_num)
  simpa using h

/-- C10 counterexample: two ConnectionIDs of datalen 4 agreeing on their first
4 bytes (hence equal under operator==) but differing in the array byte at
index 4, which operator== ignores but the hash reads: their hashes differ. -/
theorem cid_hash_inconsistent_below_word :
    cidEq ⟨4, [1, 2, 3, 4, 5, 0, 0, 0, 0, 0, 0, 0, 0, 0, 0, 0, 0, 0, 0, 0]⟩
        ⟨4, [1, 2, 3, 4, 6, 0, 0, 0, 0, 0, 0, 0, 0, 0, 0, 0, 0, 0, 0, 0]⟩ = true ∧
      cidHash ⟨4, [1, 2, 3, 4, 5, 0, 0, 0, 0, 0, 0, 0, 0, 0, 0, 0, 0, 0, 0, 0]⟩ ≠
        cidHash ⟨4, [1, 2, 3, 4, 6, 0, 0, 0, 0, 0, 0, 0, 0, 0, 0, 0, 0, 0, 0, 0]⟩ := by
  decide

/-- C10 amended: equal ConnectionIDs hash equally provided datalen covers at
least one machine word (8 bytes) - which holds for every CID this library
constructs (random() uses 20 bytes, the handshake setup uses 8). -/
theorem cid_hash_consistent_with_eq (a b : ConnectionID)
    (hlen : 8 ≤ a.datalen) (heq : cidEq a b = true) : cidHash a = cidHash b := by
  unfold cidEq at heq
  simp only [Bool.and_eq_true, beq_iff_eq] at heq
  obtain ⟨hdl, hdata⟩ := heq
  unfold cidHash
  have h8 : a.data.take 8 = b.data.take 8 := by
    have h1 : (a.data.take a.datalen).take 8 = (b.data.take a.datalen).take 8 := by
      rw [hdata]
    simpa [List.take_take, Nat.min_eq_left hlen] using h1
  rw [h8]

/-- Witness for cid_hash_consistent_with_eq at two concrete datalen-8 CIDs
that agree on their first 8 bytes and differ in later garbage bytes. -/
theorem cid_hash_consistent_with_eq_witness :
    (8 : Nat) ≤ 8 ∧
      cidEq ⟨8, [9, 8, 7, 6, 5, 4, 3, 2, 77, 0, 0, 0, 0, 0, 0, 0, 0, 0, 0, 0]⟩
        ⟨8, [9, 8, 7, 6, 5, 4, 3, 2, 33, 1, 0, 0, 0, 0, 0, 0, 0, 0, 0, 0]⟩ = true ∧
      cidHash ⟨8, [9, 8, 7, 6, 5, 4, 3, 2, 77, 0, 0, 0, 0, 0, 0, 0, 0, 0, 0, 0]⟩ =
        cidHash ⟨8, [9, 8, 7, 6, 5, 4, 3, 2, 33, 1, 0, 0, 0, 0, 0, 0, 0, 0, 0, 0]⟩ := by
  refine ⟨by norm_num, by decide, ?_⟩
  exact cid_hash_consistent_with_eq
    ⟨8, [9, 8, 7, 6, 5, 4, 3, 2, 77, 0, 0, 0, 0, 0, 0, 0, 0, 0, 0, 0]⟩
    ⟨8, [9, 8, 7, 6, 5, 4, 3, 2, 33, 1, 0, 0, 0, 0, 0, 0, 0, 0, 0, 0]⟩
    (by norm_num) (by decide)

/-! ## Connection::schedule_retransmit (src/src/connection.cpp lines 402-419)

The function casts the engine expiry (ngtcp2_tstamp, a uint64) and the current
timestamp to uvw::Loop::Time, which is std::chrono::duration of uint64
milliseconds; it computes delta = duration_cast to signed milliseconds of the
(wrapping, unsigned) difference exp - now, then compares exp against
std::numeric_limits of the duration type.  std::numeric_limits has no
specialization for chrono durations, so the primary template applies and its
max() is the value-initialized duration, i.e. count 0: the sentinel test fires
exactly when the expiry count is 0, never at the uint64 maximum.  Otherwise
the timer is stopped and restarted single-shot with max(0ms, delta). -/

/-- Reinterpretation of a uint64 bit pattern as int64, as performed by
duration_cast from a uint64-rep duration to std::chrono::milliseconds. -/
def toInt64 (n : Nat) : Int :=
  if n % 2 ^ 64 < 2 ^ 63 then ((n % 2 ^ 64 : Nat) : Int)
  else ((n % 2 ^ 64 : Nat) : Int) - 2 ^ 64

/-- Action taken on the retransmit timer: stopped without restart, or stopped
and restarted as a single shot after the given delay. -/
inductive TimerAction
  | stop
  | start (delay : Int)
deriving DecidableEq

/-- Value of std::numeric_limits of uvw::Loop::Time max(): the primary
numeric_limits template (chrono durations have no specialization) returns the
value-initialized duration, whose count is 0. -/
def loopTimeLimitsMax : Nat := 0

/-- Embedding of Connection::schedule_retransmit.  Arguments are the counts of
the expiry and the current timestamp as uint64 values. -/
def schedule_retransmit (expiry now : Nat) : TimerAction :=
  let exp := expiry % 2 ^ 64
  let nowc := now % 2 ^ 64
  let delta : Int := toInt64 (exp + 2 ^ 64 - nowc)
  if exp = loopTimeLimitsMax then TimerAction.stop
  else TimerAction.start (max 0 delta)

/-- C6: the claim states that when the engine expiry equals the "never"
sentinel (the maximal value of its type, 2^64 - 1) the retransmit timer is
stopped and not restarted.  Because the sentinel comparison is against
numeric_limits of a chrono duration - which is the unspecialized primary
template and yields zero - the code instead starts the timer with delay
max(0, 2^64 - 1 - now), whose signed reinterpretation is negative, i.e.
delay 0; the stop branch fires at expiry count 0 instead. -/
theorem schedule_retransmit_never_sentinel_starts_timer :
    schedule_retransmit (2 ^ 64 - 1) 1000 = TimerAction.start 0 ∧
      schedule_retransmit 0 1000 = TimerAction.stop := by
  constructor
  · have h1 : (2 ^ 64 - 1) % 2 ^ 64 = 2 ^ 64 - 1 := Nat.mod_eq_of_lt (by norm_num)
    have h2 : (1000 : Nat) % 2 ^ 64 = 1000 := Nat.mod_eq_of_lt (by norm_num)
    simp only [schedule_retransmit, toInt64, loopTimeLimitsMax, h1, h2]
    norm_num
  · simp [schedule_retransmit, loopTimeLimitsMax]

/-! ## DatagramBuffer destructor (src/include/quic/stream.hpp lines 41-45)

The destructor executes memset(&buf, 0, buf.size()) followed by buf.clear().
The first argument &buf is the address of the std::vector object itself (its
pointer/size/capacity header), not buf.data(): the memset scrubs buf.size()
bytes of the vector header while the heap array holding the datagram payload
is never written, and clear() only ends the elements' lifetimes.  We model
process memory as a function from addresses to byte values; the vector object
and its heap array occupy disjoint regions. -/

/-- Embedding of memset(dst, 0, n): zero the n bytes starting at dst. -/
def memsetZero (mem : Nat → Nat) (dst n : Nat) : Nat → Nat :=
  fun a => if dst ≤ a ∧ a < dst + n then 0 else mem a

/-- Memory effect of DatagramBuffer::~DatagramBuffer: memset(&buf, 0,
buf.size()) where vectorObjAddr is the address of the vector member buf and
bufSize is buf.size().  The subsequent buf.clear() writes no bytes. -/
def dgram_dtor_memset (mem : Nat → Nat) (vectorObjAddr bufSize : Nat) : Nat → Nat :=
  memsetZero mem vectorObjAddr bufSize

/-- C9: the claim states the destructor zeroes the contained bytes of buf.
With the vector object at address 64 and its 3-byte heap payload 7, 8, 9 at
addresses 512..514, the destructor's memset zeroes bytes at the vector object
instead: the payload byte at 512 still reads 7 (not 0) afterwards, while the
header byte at 64 was scrubbed. -/
theorem dgram_dtor_leaves_payload_bytes :
    (dgram_dtor_memset (fun a => if 512 ≤ a ∧ a < 515 then 7 else 1) 64 3) 512 = 7 ∧
      (dgram_dtor_memset (fun a => if 512 ≤ a ∧ a < 515 then 7 else 1) 64 3) 512 ≠ 0 ∧
      (dgram_dtor_memset (fun a => if 512 ≤ a ∧ a < 515 then 7 else 1) 64 3) 64 = 0 := by
  refine ⟨?_, ?_, ?_⟩ <;> decide

/-! ## Network close and job submission (src/src/network.cpp)

The Network holds an atomic running flag and a mutex-protected job queue.
call_soon (lines 196-205) locks the queue, enqueues unconditionally - it
never consults the running flag (the code's own NOTE comment asks when to
stop accepting jobs) - and wakes the loop.  close (lines 154-176) does
running.exchange(false): if the flag was already false it immediately
satisfies its promise and returns; otherwise it enqueues the shutdown work
(via call, which for a foreign thread is call_soon) and returns a pending
future.  process_job_queue (lines 207-227) swaps the queue out under the lock
and executes every job in it, with no check of the running flag. -/

/-- Jobs on the event-loop queue: an abstract user closure with a tag, or the
shutdown closure that close() submits. -/
inductive Job
  | user (tag : Nat)
  | shutdown (graceful : Bool)
deriving DecidableEq

/-- Network state relevant to close and job submission. -/
structure NetworkS where
  running : Bool
  job_queue : List Job
deriving DecidableEq

/-- Result handed back through the std::future returned by close. -/
inductive CloseFuture
  | alreadySatisfied
  | pendingShutdown
deriving DecidableEq

/-- Embedding of Network::call_soon: enqueue unconditionally and wake the
loop.  No branch inspects the running flag. -/
def call_soon (n : NetworkS) (f : Job) : NetworkS :=
  { n with job_queue := n.job_queue ++ [f] }

/-- Embedding of Network::close: running.exchange(false); if it was already
false, satisfy the promise at once and change nothing; otherwise submit the
shutdown job and hand back the pending future. -/
def Network_close (n : NetworkS) (graceful : Bool) : NetworkS × CloseFuture :=
  if n.running then
    ({ running := false, job_queue := n.job_queue ++ [Job.shutdown graceful] },
      CloseFuture.pendingShutdown)
  else
    (n, CloseFuture.alreadySatisfied)

/-- Embedding of Network::process_job_queue: swap the queue out and run every
job in it; returns the drained state and the list of executed jobs. -/
def process_job_queue (n : NetworkS) : NetworkS × List Job :=
  ({ n with job_queue := [] }, n.job_queue)

/-- C4: the claim states that a foreign-thread job submitted via call /
call_soon after close has begun (running flipped to false) is never enqueued
and never executed.  Starting from a running Network, after close has flipped
the flag, call_soon of a user job still appends it to the job queue, and the
next process_job_queue run executes it. -/
theorem call_soon_after_close_enqueues_and_runs :
    (call_soon (Network_close ⟨true, []⟩ true).1 (Job.user 7)).job_queue
        = [Job.shutdown true, Job.user 7] ∧
      Job.user 7 ∈
        (process_job_queue (call_soon (Network_close ⟨true, []⟩ true).1 (Job.user 7))).2 := by
  constructor <;> decide

/-- C8: Network::close is idempotent: any close performed after a close has
already begun (which left running = false) changes nothing and returns an
already-satisfied future, for every starting state and every combination of
graceful flags. -/
theorem network_close_idempotent (n : NetworkS) (g g2 : Bool) :
    Network_close (Network_close n g).1 g2
      = ((Network_close n g).1, CloseFuture.alreadySatisfied) := by
  unfold Network_close
  by_cases h : n.running <;> simp [h]

/-! ## Endpoint::connect CID installation (src/include/quic/endpoint.hpp lines 97-112)

Inside the loop-thread job, connect runs an unconditional loop: it draws
ConnectionID::random() and tries conns.emplace(cid, nullptr); on emplace
failure (the random CID equals a key already present, under operator==) it
simply loops and draws again; on success it assigns the freshly constructed
Connection into the emplaced slot my and fulfils the promise.  We model conns
as an association list keyed by ConnectionID (membership decided by
operator==, the map's key-equality) and the random draws as the list of CIDs
the generator produces, consumed in order. -/

/-- Key membership in the conns map, decided by ConnectionID::operator==. -/
def keysContain (m : List (ConnectionID × Option Nat)) (c : ConnectionID) : Bool :=
  m.any (fun kv => cidEq kv.1 c)

/-- Assignment itr->second = conn into the slot whose key equals c. -/
def setConn (m : List (ConnectionID × Option Nat)) (c : ConnectionID) (v : Nat) :
    List (ConnectionID × Option Nat) :=
  m.map (fun kv => if cidEq kv.1 c then (kv.1, some v) else kv)

/-- Value stored under the first key equal to c, if any. -/
def lookupConn (m : List (ConnectionID × Option Nat)) (c : ConnectionID) :
    Option (Option Nat) :=
  (m.find? (fun kv => cidEq kv.1 c)).map (fun kv => kv.2)

/-- Number of keys of the map equal to c. -/
def countKey (m : List (ConnectionID × Option Nat)) (c : ConnectionID) : Nat :=
  (m.filter (fun kv => cidEq kv.1 c)).length

/-- Abstract handle standing for the Connection built by Connection::make_conn. -/
def newConnHandle : Nat := 1

/-- Map contents after connect has emplaced the fresh key c with nullptr and
then assigned the new Connection into that slot. -/
def installConn (m : List (ConnectionID × Option Nat)) (c : ConnectionID) :
    List (ConnectionID × Option Nat) :=
  setConn (m ++ [(c, none)]) c newConnHandle

/-- Embedding of the connect CID loop: draw the next random CID; if
conns.emplace fails because the key is already present, retry with the next
draw; on emplace success install the new Connection under the fresh key.
Returns none only if the draw supply is exhausted (unreachable for the real
generator, which can be drawn forever). -/
def connect_install (m : List (ConnectionID × Option Nat)) :
    List ConnectionID → Option (ConnectionID × List (ConnectionID × Option Nat))
  | [] => none
  | c :: rest =>
      if keysContain m c then connect_install m rest
      else some (c, installConn m c)

/-- ConnectionID::operator== is reflexive. -/
theorem cidEq_refl (c : ConnectionID) : cidEq c c = true := by
  simp [cidEq]

/-- Helper: if no key of m equals c, find? by key-equality skips all of m. -/
theorem find_skip_of_not_contains (m : List (ConnectionID × Option Nat))
    (c : ConnectionID) (h : keysContain m c = false) (tail : List (ConnectionID × Option Nat)) :
    (m.map (fun kv => if cidEq kv.1 c then (kv.1, some newConnHandle) else kv) ++ tail).find?
        (fun kv => cidEq kv.1 c) = tail.find? (fun kv => cidEq kv.1 c) := by
  induction m with
  | nil => simp
  | cons kv rest ih =>
      simp only [keysContain, List.any_cons, Bool.or_eq_false_iff] at h
      obtain ⟨h1, h2⟩ := h
      rw [List.map_cons, List.cons_append,
        show (if cidEq kv.1 c = true then (kv.1, some newConnHandle) else kv) = kv from
          if_neg (by simp [h1]),
        List.find?_cons_of_neg _ (by simp [h1])]
      exact ih h2

/-- Helper: setConn preserves the multiset of keys, so key counts are
unchanged. -/
theorem countKey_setConn (m : List (ConnectionID × Option Nat)) (c c0 : ConnectionID)
    (v : Nat) : countKey (setConn m c v) c0 = countKey m c0 := by
  induction m with
  | nil => simp [countKey, setConn]
  | cons kv rest ih =>
      simp only [countKey, setConn, List.map_cons, List.filter_cons] at *
      by_cases hkv : cidEq kv.1 c
      · simp only [hkv, if_true]
        by_cases h0 : cidEq kv.1 c0 <;> simp [h0, ih]
      · simp only [hkv, if_false]
        by_cases h0 : cidEq kv.1 c0 <;> simp [h0, ih]

/-- Helper: if no key of m equals c, the filter by key-equality drops all of m. -/
theorem countKey_zero_of_not_contains (m : List (ConnectionID × Option Nat))
    (c : ConnectionID) (h : keysContain m c = false) : countKey m c = 0 := by
  induction m with
  | nil => simp [countKey]
  | cons kv rest ih =>
      simp only [keysContain, List.any_cons, Bool.or_eq_false_iff] at h
      obtain ⟨h1, h2⟩ := h
      simp only [countKey, List.filter_cons, h1, if_false]
      exact ih h2

/-- C5: the local CID connect installs is produced by rejection sampling: the
loop retries past every draw that equals an existing key, and for the first
draw c that is fresh (the first draw accepted by conns.emplace), connect
completes without error with c installed: c was not a key before, afterwards
it is a key exactly once, and it maps to the new Connection. -/
theorem connect_cid_rejection_sampling (m : List (ConnectionID × Option Nat))
    (rands : List ConnectionID) (c : ConnectionID)
    (hfind : rands.find? (fun x => !keysContain m x) = some c) :
    connect_install m rands = some (c, installConn m c) ∧
      keysContain m c = false ∧
      lookupConn (installConn m c) c = some (some newConnHandle) ∧
      countKey (installConn m c) c = 1 := by
  have hfresh : keysContain m c = false := by
    have := List.find?_some hfind
    simpa using this
  refine ⟨?_, hfresh, ?_, ?_⟩
  · induction rands with
    | nil => simp at hfind
    | cons a rest ih =>
        by_cases ha : keysContain m a
        · have ha' : (!keysContain m a) = false := by simp [ha]
          rw [List.find?_cons, ha'] at hfind
          simpa [connect_install, ha] using ih hfind
        · have ha' : (!keysContain m a) = true := by simp [ha]
          rw [List.find?_cons, ha'] at hfind
          obtain rfl : a = c := by simpa using hfind
          simp [connect_install, ha]
  · unfold lookupConn installConn setConn
    rw [List.map_append]
    have := find_skip_of_not_contains m c hfresh
      ([(c, none)].map (fun kv => if cidEq kv.1 c then (kv.1, some newConnHandle) else kv))
    rw [this]
    simp [cidEq_refl]
  · unfold installConn
    rw [countKey_setConn]
    have h1 : countKey (m ++ [(c, none)]) c = countKey m c + 1 := by
      simp [countKey, List.filter_append, cidEq_refl]
    rw [h1, countKey_zero_of_not_contains m c hfresh]

/-- Witness for connect_cid_rejection_sampling: conns already holds the CID
with bytes 5,5; the generator first draws that same CID (a collision, which
the loop rejects and retries) and then a fresh CID with bytes 6,6, which is
installed. -/
theorem connect_cid_rejection_sampling_witness :
    ([⟨2, [5, 5]⟩, ⟨2, [6, 6]⟩] : List ConnectionID).find?
        (fun x => !keysContain [(⟨2, [5, 5]⟩, some 9)] x) = some ⟨2, [6, 6]⟩ ∧
      connect_install [(⟨2, [5, 5]⟩, some 9)] [⟨2, [5, 5]⟩, ⟨2, [6, 6]⟩]
        = some (⟨2, [6, 6]⟩, installConn [(⟨2, [5, 5]⟩, some 9)] ⟨2, [6, 6]⟩) := by
  refine ⟨by decide, ?_⟩
  exact (connect_cid_rejection_sampling [(⟨2, [5, 5]⟩, some 9)]
    [⟨2, [5, 5]⟩, ⟨2, [6, 6]⟩] ⟨2, [6, 6]⟩ (by decide)).1

/-! ## Connection::flush_streams (src/src/connection.cpp lines 169-399)

The packet-write loop.  At entry it queries the engine for
max_tx_udp_payload_size and send_quantum and sets
max_stream_packets = send_quantum / max_udp_payload_size (uint64 division);
stream_packets is a uint16_t counter; the local variable
flags = NGTCP2_WRITE_STREAM_FLAG_MORE lives for the whole invocation and the
FIN bit, once or-ed in, is never cleared.  The working set strs collects (in
map order) every stream whose pointer is set and whose sent_fin is false.

The external engine (ngtcp2_conn_writev_stream) and the socket are oracles:
we model one invocation's interactions as a list of OEntry records consumed
in order, each giving the writev return value nwrite, the ndatalen output,
and - used only when a packet send happens - the socket error code (0
success, 11 EAGAIN, anything else fatal).  Exhaustion of the oracle list ends
the modelled invocation.  Stream::wrote lives in a translation unit not
present under src/. -/

/-- Per-stream state touched by flush_streams (stream.hpp private fields). -/
structure StrS where
  stream_id : Int
  size : Nat
  unacked_size : Nat
  is_new : Bool
  is_closing : Bool
  sent_fin : Bool
deriving DecidableEq

/-- Stream::unsent = used() - unacked() (size_t; the stream invariant
unacked_size ≤ size keeps the subtraction exact). -/
def StrS.unsent (s : StrS) : Nat := s.size - s.unacked_size

/-- Modelled from the spec: Stream::wrote (declared in stream.hpp, defined in
stream.cpp which is not part of the sources) records ack-pending state for
ndata stream bytes consumed by the engine; per spec section 4.D step 3 it
moves ndata bytes into the unacked account. -/
def wroteF (n : Int) (s : StrS) : StrS :=
  { s with unacked_size := s.unacked_size + n.toNat }

/-- One oracle entry: the engine's writev-stream result (nwrite, ndatalen)
and the socket result consulted if this call leads to a packet send. -/
structure OEntry where
  nwrite : Int
  ndatalen : Int
  sock : Int
deriving DecidableEq

/-- Record of one ngtcp2_conn_writev_stream call: the stream id passed (or -1
for the non-stream pass), whether the flags carried the FIN bit, and whether
this call's stream met the FIN condition
is_closing ∧ ¬sent_fin ∧ unsent() == 0 right before the call. -/
structure CallRec where
  sid : Int
  fin : Bool
  trig : Bool
deriving DecidableEq

/-- State threaded through one flush_streams invocation: the master stream
map (list in map order), the FIN bit of the flags variable, the uint16
stream_packets counter, the count of stream-data packets successfully sent,
and the trace of writev calls issued. -/
structure FS where
  streams : List StrS
  finFlag : Bool
  sp : Nat
  sent : Nat
  trace : List CallRec
deriving DecidableEq

/-- Lookup of a stream in the master map by id (the working set holds
pointers; we key by stream_id). -/
def getStr (l : List StrS) (id : Int) : StrS :=
  (l.find? (fun s => s.stream_id == id)).getD ⟨id, 0, 0, false, false, false⟩

/-- In-place mutation of the stream with the given id in the master map. -/
def updateStr (l : List StrS) (id : Int) (f : StrS → StrS) : List StrS :=
  l.map (fun s => if s.stream_id == id then f s else s)

/-- Error codes of the external engine (ngtcp2.h). -/
def ERR_WRITE_MORE : Int := -240

/-- NGTCP2_ERR_CLOSING. -/
def ERR_CLOSING : Int := -230

/-- NGTCP2_ERR_STREAM_SHUT_WR. -/
def ERR_STREAM_SHUT_WR : Int := -221

/-- NGTCP2_ERR_STREAM_DATA_BLOCKED. -/
def ERR_STREAM_DATA_BLOCKED : Int := -210

/-- Embedding of the second loop of flush_streams (lines 342-396): writev
with stream id -1 and no data, repeated until nwrite = 0, an error other than
WRITE_MORE, or a send happens whose send_packet result makes the code
return.  The flags variable - including a FIN bit left over from the first
loop - is passed unchanged to every call.  Note the code returns when
send_packet succeeds (rv != 0) and keeps looping when it reports blocked or
failure. -/
def pass2 : List OEntry → FS → FS
  | [], st => st
  | e :: orest, st =>
      let st1 := { st with trace := st.trace ++ [⟨-1, st.finFlag, false⟩] }
      if e.nwrite == 0 then st1
      else if e.nwrite < 0 then
        if e.nwrite == ERR_WRITE_MORE then pass2 orest st1
        else st1
      else
        if e.sock == 0 then st1 else pass2 orest st1

/-- FIN condition checked at the top of each for-loop iteration:
stream.is_closing && !stream.sent_fin && stream.unsent() == 0. -/
def finTrig (st : FS) (id : Int) : Bool :=
  (getStr st.streams id).is_closing && !(getStr st.streams id).sent_fin
    && ((getStr st.streams id).unsent == 0)

/-- State change performed before the writev call (lines 242-251): when the
FIN condition holds, or FIN into flags and set the stream's sent_fin (before
and regardless of the engine call); otherwise clear a new stream's is_new. -/
def finCore (st : FS) (id : Int) : FS :=
  if finTrig st id then
    { st with
      streams := updateStr st.streams id (fun t => { t with sent_fin := true }),
      finFlag := true }
  else if (getStr st.streams id).is_new then
    { st with streams := updateStr st.streams id (fun t => { t with is_new := false }) }
  else st

/-- finCore followed by recording the writev call that is now issued, with
the flags as updated. -/
def finStep (st : FS) (id : Int) : FS :=
  { finCore st id with
    trace := (finCore st id).trace ++ [⟨id, (finCore st id).finFlag, finTrig st id⟩] }

/-- Book-keeping after a writev with nwrite ≥ 0 (line 304): when ndatalen ≥ 0
the engine consumed that many stream bytes, recorded via Stream::wrote. -/
def wroteStep (st : FS) (id : Int) (nd : Int) : FS :=
  if 0 ≤ nd then { st with streams := updateStr st.streams id (wroteF nd) } else st

/-- Result of one sweep of the inner for loop over the working set: either
flush_streams finished (left), or the for loop reached the end of the list
and control is back at the while condition (right: remaining oracle, the
streams still in the working set in list order, state). -/
def sweep (maxSp : Nat) : List OEntry → List Int → List Int → FS →
    FS ⊕ (List OEntry × List Int × FS)
  | oracle, done, [], st => Sum.inr (oracle, done.reverse, st)
  | [], _, _ :: _, st => Sum.inl st
  | e :: orest, done, id :: rest, st =>
      let st2 := finStep st id
      if e.nwrite < 0 then
        if e.nwrite == ERR_WRITE_MORE then
          sweep maxSp orest done rest
            { st2 with streams := updateStr st2.streams id (wroteF e.ndatalen) }
        else if e.nwrite == ERR_CLOSING || e.nwrite == ERR_STREAM_SHUT_WR
            || e.nwrite == ERR_STREAM_DATA_BLOCKED then
          sweep maxSp orest done rest st2
        else
          Sum.inr (orest, done.reverse ++ id :: rest, st2)
      else
        let st3 := wroteStep st2 id e.ndatalen
        if e.nwrite == 0 then Sum.inl (pass2 orest st3)
        else if e.sock == 11 then Sum.inl st3
        else if e.sock != 0 then Sum.inl st3
        else
          let keep := (getStr st3.streams id).unsent != 0
          let sp2 := (st3.sp + 1) % 65536
          let st4 := { st3 with sp := sp2, sent := st3.sent + 1 }
          if sp2 == maxSp then Sum.inl st4
          else sweep maxSp orest (if keep then id :: done else done) rest st4

/-- Embedding of the while loop of flush_streams (lines 223-338), driven by a
fuel argument: while the working set is nonempty and stream_packets <
max_stream_packets, run one sweep of the for loop.  Every sweep whose result
returns to the while condition consumed at least one oracle entry, so fuel =
oracle length + 1 (as supplied by flush_streams) can never be exhausted
before the oracle is. -/
def whileLoopF (maxSp : Nat) : Nat → List OEntry → List Int → FS → FS
  | 0, _, _, st => st
  | fuel + 1, oracle, strs, st =>
      if strs.isEmpty then pass2 oracle st
      else if st.sp < maxSp then
        match sweep maxSp oracle [] strs st with
        | Sum.inl fin => fin
        | Sum.inr (orest, strs2, st2) => whileLoopF maxSp fuel orest strs2 st2
      else pass2 oracle st

/-- Embedding of one Connection::flush_streams invocation.  quantum and
payload are the engine's send_quantum and max_tx_udp_payload_size queried at
entry; max_stream_packets is their uint64 quotient.  The working set holds
every stream whose sent_fin is false; flags starts as MORE with no FIN bit;
stream_packets starts at 0. -/
def flush_streams (quantum payload : Nat) (oracle : List OEntry)
    (streams : List StrS) : FS :=
  let maxSp := quantum / payload
  let strs := (streams.filter (fun s => !s.sent_fin)).map (fun s => s.stream_id)
  whileLoopF maxSp (oracle.length + 1) oracle strs
    { streams := streams, finFlag := false, sp := 0, sent := 0, trace := [] }

/-- C3: the claim states that a writev-stream call carries FIN exactly when
its own stream satisfies is_closing ∧ ¬sent_fin ∧ unsent() = 0, that
sent_fin is set only on success of that call, and that the FIN flag never
carries over to other streams or the stream-id -1 pass.  Running
flush_streams on stream 0 (closing, fully sent, FIN due) and stream 1 (not
closing), with the engine answering STREAM_DATA_BLOCKED to both stream calls
and 0 to the -1 call: the FIN bit, or-ed into the invocation-wide flags for
stream 0, is also passed on stream 1's call and on the -1 call, and stream
0's sent_fin is set even though its engine call failed. -/
theorem flush_streams_fin_flag_leaks :
    (flush_streams 12000 1200 [⟨-210, -1, 0⟩, ⟨-210, -1, 0⟩, ⟨0, 0, 0⟩]
        [⟨0, 4, 4, false, true, false⟩, ⟨1, 10, 0, false, false, false⟩]).trace
      = [⟨0, true, true⟩, ⟨1, true, false⟩, ⟨-1, true, false⟩] ∧
      (flush_streams 12000 1200 [⟨-210, -1, 0⟩, ⟨-210, -1, 0⟩, ⟨0, 0, 0⟩]
        [⟨0, 4, 4, false, true, false⟩, ⟨1, 10, 0, false, false, false⟩]).streams
      = [⟨0, 4, 4, false, true, true⟩, ⟨1, 10, 0, false, false, false⟩] := by
  constructor <;> decide

/-- Projection fact: the pre-call state change never touches the packet
counters. -/
theorem finCore_sent (st : FS) (id : Int) : (finCore st id).sent = st.sent := by
  unfold finCore
  split
  · rfl
  · split <;> rfl

/-- Projection fact: the pre-call state change never touches stream_packets. -/
theorem finCore_sp (st : FS) (id : Int) : (finCore st id).sp = st.sp := by
  unfold finCore
  split
  · rfl
  · split <;> rfl

/-- Projection fact: recording the call touches neither counter. -/
theorem finStep_sent (st : FS) (id : Int) : (finStep st id).sent = st.sent := by
  unfold finStep
  exact finCore_sent st id

/-- Projection fact: recording the call touches neither counter. -/
theorem finStep_sp (st : FS) (id : Int) : (finStep st id).sp = st.sp := by
  unfold finStep
  exact finCore_sp st id

/-- Projection fact: Stream::wrote book-keeping never touches the packet
counters. -/
theorem wroteStep_sent (st : FS) (id : Int) (nd : Int) :
    (wroteStep st id nd).sent = st.sent := by
  unfold wroteStep
  split <;> rfl

/-- Projection fact: Stream::wrote book-keeping never touches stream_packets. -/
theorem wroteStep_sp (st : FS) (id : Int) (nd : Int) : (wroteStep st id nd).sp = st.sp := by
  unfold wroteStep
  split <;> rfl

/-- The non-stream pass sends no stream-data packets: pass2 leaves the
stream-data packet count unchanged. -/
theorem pass2_sent (oracle : List OEntry) (st : FS) : (pass2 oracle st).sent = st.sent := by
  induction oracle generalizing st with
  | nil => rfl
  | cons e orest ih =>
      simp only [pass2]
      by_cases h0 : e.nwrite == 0
      · simp [h0]
      · by_cases hneg : e.nwrite < 0
        · by_cases hwm : e.nwrite == ERR_WRITE_MORE
          · simp [h0, hneg, hwm, ih]
          · simp [h0, hneg, hwm]
        · by_cases hs : e.sock == 0
          · simp [h0, hneg, hs]
          · simp [h0, hneg, hs, ih]

/-- Budget invariant of one for-loop sweep: entering with stream_packets
strictly below max_stream_packets (and max_stream_packets in uint16 range so
the 16-bit increment cannot wrap), the stream-data packets sent cannot exceed
the remaining budget, and a sweep that returns to the while condition
preserves the budget and keeps stream_packets below the bound. -/
theorem sweep_sent_bound (maxSp : Nat) (hmax : maxSp < 65536) :
    ∀ (oracle : List OEntry) (done todo : List Int) (st : FS), st.sp < maxSp →
      (∀ fin, sweep maxSp oracle done todo st = Sum.inl fin →
        fin.sent ≤ st.sent + (maxSp - st.sp)) ∧
      (∀ orest strs2 st2, sweep maxSp oracle done todo st = Sum.inr (orest, strs2, st2) →
        st2.sp < maxSp ∧ st2.sent + (maxSp - st2.sp) ≤ st.sent + (maxSp - st.sp)) := by
  intro oracle
  induction oracle with
  | nil =>
      intro done todo st hsp
      cases todo with
      | nil =>
          refine ⟨fun fin hfin => by simp [sweep] at hfin, fun o2 s2 t2 h => ?_⟩
          simp only [sweep, Sum.inr.injEq, Prod.mk.injEq] at h
          obtain ⟨h1, h2, h3⟩ := h
          subst h3
          exact ⟨hsp, le_refl _⟩
      | cons id rest =>
          refine ⟨fun fin hfin => ?_, fun o2 s2 t2 h => by simp [sweep] at h⟩
          obtain rfl : st = fin := by simpa [sweep] using hfin
          omega
  | cons e orest ih =>
      intro done todo st hsp
      cases todo with
      | nil =>
          refine ⟨fun fin hfin => by simp [sweep] at hfin, fun o2 s2 t2 h => ?_⟩
          simp only [sweep, Sum.inr.injEq, Prod.mk.injEq] at h
          obtain ⟨h1, h2, h3⟩ := h
          subst h3
          exact ⟨hsp, le_refl _⟩
      | cons id rest =>
          have hsent2 : (finStep st id).sent = st.sent := finStep_sent st id
          have hsp2 : (finStep st id).sp = st.sp := finStep_sp st id
          simp only [sweep]
          by_cases hneg : e.nwrite < 0
          · simp only [hneg, if_true]
            by_cases hwm : e.nwrite == ERR_WRITE_MORE
            · simp only [hwm, if_true]
              have := ih done rest
                { finStep st id with
                  streams := updateStr (finStep st id).streams id (wroteF e.ndatalen) }
                (by simpa [hsp2] using hsp)
              simpa [hsent2, hsp2] using this
            · simp only [hwm, Bool.false_eq_true, if_false]
              by_cases herr : e.nwrite == ERR_CLOSING || e.nwrite == ERR_STREAM_SHUT_WR
                  || e.nwrite == ERR_STREAM_DATA_BLOCKED
              · simp only [herr, if_true]
                have := ih done rest (finStep st id) (by simpa [hsp2] using hsp)
                simpa [hsent2, hsp2] using this
              · simp only [herr, Bool.false_eq_true, if_false]
                refine ⟨fun fin hfin => by simp at hfin, fun o2 s2 t2 h => ?_⟩
                simp only [Sum.inr.injEq, Prod.mk.injEq] at h
                obtain ⟨h1, h2, h3⟩ := h
                subst h3
                exact ⟨by simpa [hsp2] using hsp, by simp [hsent2, hsp2]⟩
          · simp only [hneg, if_false]
            have hsent3 : (wroteStep (finStep st id) id e.ndatalen).sent = st.sent := by
              rw [wroteStep_sent, hsent2]
            have hsp3 : (wroteStep (finStep st id) id e.ndatalen).sp = st.sp := by
              rw [wroteStep_sp, hsp2]
            by_cases h0 : e.nwrite == 0
            · simp only [h0, if_true]
              refine ⟨fun fin hfin => ?_, fun o2 s2 t2 h => by simp at h⟩
              obtain rfl : pass2 orest (wroteStep (finStep st id) id e.ndatalen) = fin := by
                simpa using hfin
              rw [pass2_sent, hsent3]
              omega
            · simp only [h0, Bool.false_eq_true, if_false]
              by_cases hb : e.sock == 11
              · simp only [hb, if_true]
                refine ⟨fun fin hfin => ?_, fun o2 s2 t2 h => by simp at h⟩
                obtain rfl : wroteStep (finStep st id) id e.ndatalen = fin := by
                  simpa using hfin
                rw [hsent3]
                omega
              · simp only [hb, Bool.false_eq_true, if_false]
                by_cases hf : e.sock != 0
                · simp only [hf, if_true]
                  refine ⟨fun fin hfin => ?_, fun o2 s2 t2 h => by simp at h⟩
                  obtain rfl : wroteStep (finStep st id) id e.ndatalen = fin := by
                    simpa using hfin
                  rw [hsent3]
                  omega
                · simp only [hf, Bool.false_eq_true, if_false]
                  have hspval : ((wroteStep (finStep st id) id e.ndatalen).sp + 1) % 65536
                      = st.sp + 1 := by
                    rw [hsp3]
                    exact Nat.mod_eq_of_lt (by omega)
                  by_cases hdone : ((wroteStep (finStep st id) id e.ndatalen).sp + 1) % 65536
                      == maxSp
                  · simp only [hdone, if_true]
                    refine ⟨fun fin hfin => ?_, fun o2 s2 t2 h => by simp at h⟩
                    obtain rfl :
                        ({ wroteStep (finStep st id) id e.ndatalen with
                          sp := ((wroteStep (finStep st id) id e.ndatalen).sp + 1) % 65536,
                          sent := (wroteStep (finStep st id) id e.ndatalen).sent + 1 } : FS)
                          = fin := by
                      simpa using hfin
                    simp only [hsent3]
                    omega
                  · simp only [hdone, Bool.false_eq_true, if_false]
                    have hlt : st.sp + 1 < maxSp := by
                      have hne : ((wroteStep (finStep st id) id e.ndatalen).sp + 1) % 65536
                          ≠ maxSp := by simpa using hdone
                      rw [hspval] at hne
                      omega
                    have := ih (if (getStr (wroteStep (finStep st id) id e.ndatalen).streams
                        id).unsent != 0 then id :: done else done) rest
                      { wroteStep (finStep st id) id e.ndatalen with
                        sp := ((wroteStep (finStep st id) id e.ndatalen).sp + 1) % 65536,
                        sent := (wroteStep (finStep st id) id e.ndatalen).sent + 1 }
                      (by simpa [hspval] using hlt)
                    refine ⟨fun fin hfin => ?_, fun o2 s2 t2 h => ?_⟩
                    · have hres := this.1 fin hfin
                      simp only [hsent3, hspval] at hres
                      omega
                    · have hres := this.2 o2 s2 t2 h
                      simp only [hsent3, hspval] at hres
                      exact ⟨hres.1, by omega⟩

/-- Budget invariant of the while loop: the stream-data packets sent by the
remainder of the invocation never exceed the remaining budget
max_stream_packets - stream_packets, provided max_stream_packets is within
uint16 range. -/
theorem whileLoopF_sent_bound (maxSp : Nat) (hmax : maxSp < 65536) :
    ∀ (fuel : Nat) (oracle : List OEntry) (strs : List Int) (st : FS),
      (whileLoopF maxSp fuel oracle strs st).sent ≤ st.sent + (maxSp - st.sp) := by
  intro fuel
  induction fuel with
  | zero => intro oracle strs st; simp [whileLoopF]
  | succ fuel ih =>
      intro oracle strs st
      simp only [whileLoopF]
      by_cases hstrs : strs.isEmpty
      · simp only [hstrs, if_true]
        rw [pass2_sent]
        omega
      · simp only [hstrs, Bool.false_eq_true, if_false]
        by_cases hsp : st.sp < maxSp
        · simp only [hsp, if_true]
          rcases hsweep : sweep maxSp oracle [] strs st with fin | ⟨orest, strs2, st2⟩
          · exact (sweep_sent_bound maxSp hmax oracle [] strs st hsp).1 fin hsweep
          · show (whileLoopF maxSp fuel orest strs2 st2).sent ≤ st.sent + (maxSp - st.sp)
            have hstep := (sweep_sent_bound maxSp hmax oracle [] strs st hsp).2
              orest strs2 st2 hsweep
            have := ih orest strs2 st2
            omega
        · simp only [hsp, if_false]
          rw [pass2_sent]
          omega

/-- C7 amended: each single flush_streams invocation sends at most
max_stream_packets = send_quantum / max_tx_udp_payload_size stream-data
packets, provided that quotient is below 2^16 - the counter stream_packets
is a uint16_t, so for larger quotients the equality test against the bound
can be missed by wrap-around (see the counterexample). -/
theorem flush_streams_packet_bound (quantum payload : Nat) (oracle : List OEntry)
    (streams : List StrS) (hq : quantum / payload < 65536) :
    (flush_streams quantum payload oracle streams).sent ≤ quantum / payload := by
  have h := whileLoopF_sent_bound (quantum / payload) hq (oracle.length + 1) oracle
    ((streams.filter (fun s => !s.sent_fin)).map (fun s => s.stream_id))
    { streams := streams, finFlag := false, sp := 0, sent := 0, trace := [] }
  simpa [flush_streams] using h

/-- Witness for flush_streams_packet_bound: quantum 2400 and payload 1200
give a bound of 2 packets for a stream with pending data and an engine that
would happily emit five. -/
theorem flush_streams_packet_bound_witness :
    2400 / 1200 < 65536 ∧
      (flush_streams 2400 1200
          [⟨1200, 0, 0⟩, ⟨1200, 0, 0⟩, ⟨1200, 0, 0⟩, ⟨1200, 0, 0⟩, ⟨1200, 0, 0⟩]
          [⟨0, 5, 0, false, false, false⟩]).sent ≤ 2400 / 1200 :=
  ⟨by norm_num, flush_streams_packet_bound 2400 1200 _ _ (by norm_num)⟩

/-- Behaviour of the loop on the uniform oracle whose every engine call
produces a 1200-byte packet consuming no stream bytes, against the single
stream 0 holding 5 unsent bytes, with max_stream_packets = 65536: every while
iteration sends exactly one packet, the uint16 counter wraps instead of ever
equalling 65536, and the loop runs until the oracle is exhausted. -/
theorem whileLoopF_const_oracle_sends (n : Nat) :
    ∀ (sp sent : Nat) (tr : List CallRec), sp < 65536 →
      (whileLoopF 65536 (n + 1) (List.replicate n ⟨1200, 0, 0⟩) [0]
        ⟨[⟨0, 5, 0, false, false, false⟩], false, sp, sent, tr⟩).sent = sent + n := by
  induction n with
  | zero =>
      intro sp sent tr hsp
      simp [whileLoopF, sweep, hsp]
  | succ n ih =>
      intro sp sent tr hsp
      have hmod : (sp + 1) % 65536 < 65536 := Nat.mod_lt _ (by norm_num)
      have hne : ((sp + 1) % 65536 == 65536) = false := by
        simp only [beq_eq_false_iff_ne, ne_eq]
        omega
      have hsweepEq : sweep 65536 (⟨1200, 0, 0⟩ :: List.replicate n ⟨1200, 0, 0⟩) [] [0]
            ⟨[⟨0, 5, 0, false, false, false⟩], false, sp, sent, tr⟩
          = Sum.inr (List.replicate n ⟨1200, 0, 0⟩, [0],
              ⟨[⟨0, 5, 0, false, false, false⟩], false, (sp + 1) % 65536, sent + 1,
                tr ++ [⟨0, false, false⟩]⟩) := by
        simp only [sweep, finStep, finCore, finTrig, wroteStep, getStr, updateStr, wroteF,
          StrS.unsent, List.find?, List.map]
        norm_num
        intro h
        exact absurd h (by omega)
      rw [List.replicate_succ, whileLoopF]
      simp only [List.isEmpty_cons, Bool.false_eq_true, if_false, hsp, if_true]
      rw [hsweepEq]
      show (whileLoopF 65536 (n + 1) (List.replicate n ⟨1200, 0, 0⟩) [0]
          ⟨[⟨0, 5, 0, false, false, false⟩], false, (sp + 1) % 65536, sent + 1,
            tr ++ [⟨0, false, false⟩]⟩).sent = sent + (n + 1)
      have hih := ih ((sp + 1) % 65536) (sent + 1) (tr ++ [(⟨0, false, false⟩ : CallRec)]) hmod
      rw [hih]
      omega

set_option maxRecDepth 4000 in
/-- C7 counterexample: the claim as stated - at most max_stream_packets
stream-data packets per invocation, with the bound returned to the loop -
fails when send_quantum / max_tx_udp_payload_size = 65536: stream_packets is
a uint16_t, so after 65535 increments it wraps to 0 and the equality test
against 65536 never fires; with an engine willing to produce 65537 packets
the invocation sends 65537 > 65536 stream-data packets. -/
theorem flush_streams_packet_bound_counterexample :
    (78643200 : Nat) / 1200 = 65536 ∧
      (flush_streams 78643200 1200 (List.replicate 65537 ⟨1200, 0, 0⟩)
          [⟨0, 5, 0, false, false, false⟩]).sent = 65537 := by
  refine ⟨by norm_num, ?_⟩
  have h := whileLoopF_const_oracle_sends 65537 0 0 [] (by norm_num)
  show (whileLoopF (78643200 / 1200)
      ((List.replicate 65537 (⟨1200, 0, 0⟩ : OEntry)).length + 1)
      (List.replicate 65537 ⟨1200, 0, 0⟩)
      (([(⟨0, 5, 0, false, false, false⟩ : StrS)].filter (fun s => !s.sent_fin)).map
        (fun s => s.stream_id))
      ⟨[⟨0, 5, 0, false, false, false⟩], false, 0, 0, []⟩).sent = 65537
  rw [List.length_replicate]
  rw [show (78643200 : Nat) / 1200 = 65536 from by norm_num]
  rw [show (List.map (fun s => s.stream_id) (List.filter (fun s => !s.sent_fin)
      [(⟨0, 5, 0, false, false, false⟩ : StrS)])) = ([0] : List Int) from by decide]
  rw [show (0 : Nat) + 65537 = 65537 from by norm_num] at h
  exact h

end OxenQuic
